import Mathlib

/-!
Verification of the access-pool scheduler and discovery/monitoring orchestrator
of the `tagbuy` backend (`app/integrations/instagram/client_pool.py`,
`app/crawler/discovery_service.py`,
`app/integrations/instagram/services/monitoring_service.py`).

The Python code is shallowly embedded: timestamps (`time.time()` floats and
`datetime.utcnow()` values) are modelled as integers on a single clock,
mutable objects are threaded explicitly, remote I/O is a parameter
(`Except`-valued functions), and effectful calls into the pool are recorded in
an event log.
-/

namespace TagBuy

/-- Truthiness of a Python `Optional[float]`: `None` and `0.0` are falsy
(`if managed.cooldown_until:` / `if managed.last_request_at:`). -/
def optTruthy (o : Option Int) : Bool :=
  match o with
  | none => false
  | some t => t != 0

/-- `client_pool.py` line 170: consecutive errors before cooldown. -/
def errorThreshold : Nat := 3

/-- `client_pool.py` line 171: `time.time() + 300  # 5 minutes`. -/
def errorCooldownSeconds : Int := 300

/-- `client_pool.py` line 186: `time.time() + 60  # 1 minute cooldown`. -/
def rateLimitCooldownSeconds : Int := 60

/-- `client_pool.py` line 210: `Daily limit: 1000 requests`. -/
def dailyRequestLimit : Nat := 1000

/-- One day, in seconds; `(datetime.utcnow() - daily_reset_at).days >= 1`
is modelled as `now - daily_reset_at >= 86400` on the integer clock. -/
def secondsPerDay : Int := 86400

/-- Pool configuration (`settings`); only the minimum inter-request interval
is consulted by the pool. -/
structure PoolConfig where
  instagram_min_request_interval : Int
  deriving Repr, DecidableEq

/-- `ManagedClient` dataclass of `client_pool.py` (the wrapped
`InstagramClient` object and login machinery are irrelevant to scheduling and
omitted; a client is identified by its `username`). -/
structure ManagedClient where
  username : String
  last_request_at : Option Int := none
  request_count : Nat := 0
  daily_request_count : Nat := 0
  daily_reset_at : Option Int := none
  is_available : Bool := true
  cooldown_until : Option Int := none
  consecutive_errors : Nat := 0
  deriving Repr, DecidableEq, Inhabited

/-- `_is_client_available`, step 2: `if managed.cooldown_until and now >=
managed.cooldown_until:` — an expired cooldown is cleared, the availability
flag restored and the consecutive-error counter reset. -/
def heal_cooldown (now : Int) (m : ManagedClient) : ManagedClient :=
  if optTruthy m.cooldown_until && decide (m.cooldown_until.getD 0 ≤ now) then
    { m with cooldown_until := none, is_available := true, consecutive_errors := 0 }
  else m

/-- `_is_client_available`, step 3: when a day has passed since
`daily_reset_at`, zero the daily counter and restart the window. -/
def roll_daily (now : Int) (m : ManagedClient) : ManagedClient :=
  match m.daily_reset_at with
  | some r =>
    if secondsPerDay ≤ now - r then
      { m with daily_request_count := 0, daily_reset_at := some now }
    else m
  | none => m

/-- `InstagramClientPool._is_client_available`.  Returns the availability
verdict together with the (possibly mutated) client: the Python method
mutates `managed` in place when a cooldown has expired or the daily window
must roll. -/
def is_client_available (cfg : PoolConfig) (now : Int) (m : ManagedClient) :
    Bool × ManagedClient :=
  -- `if managed.cooldown_until and now < managed.cooldown_until: return False`
  if optTruthy m.cooldown_until && decide (now < m.cooldown_until.getD 0) then
    (false, m)
  else
    let m2 := roll_daily now (heal_cooldown now m)
    -- `if managed.daily_request_count >= 1000: return False`
    if dailyRequestLimit ≤ m2.daily_request_count then (false, m2)
    -- `if managed.last_request_at:` minimum inter-request spacing
    else if optTruthy m2.last_request_at &&
        decide (now - m2.last_request_at.getD 0 < cfg.instagram_min_request_interval) then
      (false, m2)
    else (m2.is_available, m2)

/-- Pure availability verdict of `_is_client_available`. -/
def availB (cfg : PoolConfig) (now : Int) (m : ManagedClient) : Bool :=
  (is_client_available cfg now m).1

/-- `InstagramClientPool.mark_client_error`, per-client part. -/
def mark_client_error (now : Int) (m : ManagedClient) : ManagedClient :=
  let m1 := { m with consecutive_errors := m.consecutive_errors + 1 }
  if errorThreshold ≤ m1.consecutive_errors then
    { m1 with cooldown_until := some (now + errorCooldownSeconds), is_available := false }
  else m1

/-- `InstagramClientPool.mark_client_success`, per-client part. -/
def mark_client_success (m : ManagedClient) : ManagedClient :=
  { m with consecutive_errors := 0 }

/-- `InstagramClientPool.mark_client_rate_limited`, per-client part. -/
def mark_client_rate_limited (now : Int) (m : ManagedClient) : ManagedClient :=
  { m with cooldown_until := some (now + rateLimitCooldownSeconds), is_available := false }

/-- `InstagramClientPool._update_client_usage`. -/
def update_client_usage (now : Int) (m : ManagedClient) : ManagedClient :=
  { m with
    last_request_at := some now
    request_count := m.request_count + 1
    daily_request_count := m.daily_request_count + 1 }

/-- Pool state: the `dict` of managed clients in insertion order plus the
round-robin cursor `_current_index`. -/
structure PoolState where
  clients : List ManagedClient
  current_index : Nat
  deriving Repr, DecidableEq

/-- Outcome of `InstagramClientPool.get_client`: a leased client's username
plus the post-call pool, `NoAvailableClientError` (with the post-call pool),
or an out-of-range cursor (`IndexError`, unreachable from well-formed
states). -/
inductive AcquireResult where
  | ok (username : String) (s : PoolState)
  | err (s : PoolState)
  | ixError
  deriving Repr, DecidableEq

/-- The scan loop of `get_client`: at most `fuel = len(client_list)`
iterations; each iteration reads the client under the cursor, advances the
cursor modulo the pool size, and either leases the client (after
`_update_client_usage`) or moves on, persisting the mutations made by
`_is_client_available`. -/
def scanGo (cfg : PoolConfig) (now : Int) :
    Nat → List ManagedClient → Nat → AcquireResult
  | 0, cs, idx => .err ⟨cs, idx⟩
  | fuel + 1, cs, idx =>
    match cs[idx]? with
    | none => .ixError
    | some m =>
      let idx2 := (idx + 1) % cs.length
      let r := is_client_available cfg now m
      if r.1 then
        let m3 := update_client_usage now r.2
        .ok m3.username ⟨cs.set idx m3, idx2⟩
      else
        scanGo cfg now fuel (cs.set idx r.2) idx2

/-- `InstagramClientPool.get_client`. -/
def get_client (cfg : PoolConfig) (now : Int) (s : PoolState) : AcquireResult :=
  if s.clients.isEmpty then .err s
  else scanGo cfg now s.clients.length s.clients s.current_index

/-- One row of the `"clients"` list built by `get_pool_status`. -/
structure ClientStatusRow where
  username : String
  is_available : Bool
  request_count : Nat
  daily_request_count : Nat
  consecutive_errors : Nat
  in_cooldown : Bool
  deriving Repr, DecidableEq

/-- The dict returned by `InstagramClientPool.get_pool_status`. -/
structure PoolStatus where
  total_clients : Nat
  available_clients : Nat
  clients : List ClientStatusRow
  deriving Repr, DecidableEq

/-- The `available_clients` property: counts clients for which
`_is_client_available` holds, threading that method's mutations. -/
def countAvailable (cfg : PoolConfig) (now : Int) :
    List ManagedClient → Nat × List ManagedClient
  | [] => (0, [])
  | m :: ms =>
    let r := is_client_available cfg now m
    let rest := countAvailable cfg now ms
    ((if r.1 then 1 else 0) + rest.1, r.2 :: rest.2)

/-- The `"clients"` comprehension of `get_pool_status`: one row per client,
each built after a further (mutating) `_is_client_available` call. -/
def statusRows (cfg : PoolConfig) (now : Int) :
    List ManagedClient → List ClientStatusRow × List ManagedClient
  | [] => ([], [])
  | m :: ms =>
    let r := is_client_available cfg now m
    let m' := r.2
    let row : ClientStatusRow :=
      { username := m'.username
        is_available := r.1
        request_count := m'.request_count
        daily_request_count := m'.daily_request_count
        consecutive_errors := m'.consecutive_errors
        in_cooldown := m'.cooldown_until.isSome && decide (now < m'.cooldown_until.getD 0) }
    let rest := statusRows cfg now ms
    (row :: rest.1, m' :: rest.2)

/-- `InstagramClientPool.get_pool_status`.  The dict literal evaluates
`available_clients` (a full availability pass) before building the
`"clients"` rows (a second availability pass); both passes mutate the managed
clients, so the post-call pool is returned alongside the status. -/
def get_pool_status (cfg : PoolConfig) (now : Int) (s : PoolState) :
    PoolStatus × PoolState :=
  let availPass := countAvailable cfg now s.clients
  let rowPass := statusRows cfg now availPass.2
  ({ total_clients := s.clients.length
     available_clients := availPass.1
     clients := rowPass.1 },
   { s with clients := rowPass.2 })

/-! ## Discovery orchestrator (`app/crawler/discovery_service.py`) -/

/-- Profile snapshot returned by `client.get_user_info_by_pk` (the fields the
discovery service reads). -/
structure UserInfo where
  pk : String
  username : String
  full_name : String := ""
  biography : String := ""
  profile_pic_url : String := ""
  external_url : String := ""
  follower_count : Nat
  following_count : Nat := 0
  media_count : Nat
  is_verified : Bool := false
  is_business : Bool := false
  is_private : Bool := false
  public_email : String := ""
  public_phone : String := ""
  deriving Repr, DecidableEq, Inhabited

/-- `hashtag_config.MINIMUM_REQUIREMENTS["follower_count"]`. -/
def minimumFollowerCount : Nat := 1000

/-- `hashtag_config.MINIMUM_REQUIREMENTS["media_count"]`. -/
def minimumMediaCount : Nat := 10

/-- `InfluencerDiscoveryService._meets_requirements`. -/
def meets_requirements (u : UserInfo) : Bool :=
  if u.follower_count < minimumFollowerCount then false
  else if u.media_count < minimumMediaCount then false
  else if u.is_private then false
  else true

/-- `InfluencerTier.from_follower_count(...).value` (`core/constants.py`). -/
def tier_from_follower_count (count : Nat) : String :=
  if count < 10000 then "nano"
  else if count < 100000 then "micro"
  else if count < 1000000 then "macro"
  else "mega"

/-- An `Influencer` ORM row (`app/models/influencer.py`), restricted to the
columns the embedded services can touch.  `id` stands for the UUID primary
key and serves only as row identity.  The model defines `platform_uid`,
`categories` and `landing_url`; it has no `instagram_pk`, `category` or
`external_url` column — which is why the discovery service's
`_get_by_instagram_pk` (building `Influencer.instagram_pk == pk`) raises
`AttributeError` in the real program. -/
structure Influencer where
  id : Nat
  platform : String := "instagram"
  platform_uid : String := ""
  username : String
  full_name : String := ""
  biography : String := ""
  profile_pic_url : String := ""
  landing_url : String := ""
  follower_count : Nat := 0
  following_count : Nat := 0
  media_count : Nat := 0
  is_verified : Bool := false
  is_business : Bool := false
  categories : List String := []
  public_email : String := ""
  public_phone : String := ""
  tier : String := ""
  engagement_rate : Int := 0
  avg_likes : Int := 0
  avg_comments : Int := 0
  last_synced_at : Option Int := none
  sync_error : Option String := none
  deriving Repr, DecidableEq, Inhabited

/-- The SQLAlchemy session: `rows` is the working state all queries see
(pending adds and in-place updates included), `saved` the last committed
state. -/
structure DbSession where
  rows : List Influencer
  saved : List Influencer
  deriving Repr, DecidableEq

/-- `await self.db.commit()`. -/
def db_commit (db : DbSession) : DbSession :=
  { rows := db.rows, saved := db.rows }

/-- `await self.db.rollback()`: every record created or updated since the
last commit is discarded. -/
def db_rollback (db : DbSession) : DbSession :=
  { rows := db.saved, saved := db.saved }

/-- Health-reporting calls made into the `InstagramClientPool`
(`mark_client_error` / `mark_client_success` / `mark_client_rate_limited`),
recorded as an event log. -/
inductive PoolEvent where
  | markError
  | markSuccess
  | markRateLimited
  deriving Repr, DecidableEq

/-- The remote side of one `discover_from_hashtag` call: the outcome of
`get_hashtag_medias_top` (a list of media pks), of each `get_media_info`
call (its payload is never used by the code), of each
`get_user_info_by_pk` call, and whether the final `db.commit()` succeeds. -/
structure DiscoveryEnv where
  hashtag_medias : Except String (List String)
  media_info : String → Except String Unit
  user_info : String → Except String UserInfo
  commit_ok : Bool

/-- Python's `str(media.pk).split("_")` for the one-character separator. -/
def splitOnChar (sep : Char) : List Char → List (List Char)
  | [] => [[]]
  | c :: rest =>
    match splitOnChar sep rest with
    | [] => [[]]
    | g :: gs => if c = sep then [] :: g :: gs else (c :: g) :: gs

/-- `media_id_parts = str(media.pk).split("_")`. -/
def media_id_parts (mediaPk : String) : List String :=
  (splitOnChar '_' mediaPk.toList).map (fun cs => ⟨cs⟩)

/-- Mutable state of the `for media in medias:` loop.  `fetched_pks` is a
ghost log of the `get_user_info_by_pk` calls performed. -/
structure DiscState where
  new_count : Nat := 0
  updated_count : Nat := 0
  processed_pks : List String := []
  fetched_pks : List String := []
  rows : List Influencer
  deriving Repr, DecidableEq

/-- One iteration of the per-media loop of `discover_from_hashtag`.  Any
exception inside the iteration is caught by its `except Exception` handler
(log and `continue`), so the iteration is total; mutations made before the
failing call (the `processed_pks.add`) persist.  For a candidate that passes
the filter, `existing = await self._get_by_instagram_pk(user_info.pk)`
evaluates `Influencer.instagram_pk` while building its query — an attribute
the `Influencer` model does not define — so the call raises
`AttributeError`, which the same handler swallows: the create/update
branches below it are unreachable, no session row is ever touched and no
count is ever incremented. -/
def process_media (env : DiscoveryEnv) (now : Int) (category hashtag : String)
    (st : DiscState) (mediaPk : String) : DiscState :=
  match env.media_info mediaPk with
  | .error _ => st
  | .ok _ =>
    let parts := media_id_parts mediaPk
    if parts.length < 2 then st
    else
      let user_pk := parts.getD 1 ""
      if user_pk = "" || st.processed_pks.contains user_pk then st
      else
        let st1 := { st with
          processed_pks := user_pk :: st.processed_pks
          fetched_pks := user_pk :: st.fetched_pks }
        match env.user_info user_pk with
        | .error _ => st1
        | .ok u =>
          if !(meets_requirements u) then st1
          else
            -- `AttributeError: type object 'Influencer' has no attribute
            -- 'instagram_pk'`, caught by the per-media handler: skip
            st1

/-- What one `discover_from_hashtag` call returns and leaves behind. -/
structure DiscoverOutcome where
  new_count : Nat
  updated_count : Nat
  db : DbSession
  fetched_pks : List String
  events : List PoolEvent
  deriving Repr, DecidableEq

/-- `InfluencerDiscoveryService.discover_from_hashtag` (after a successful
`pool.get_client()`).  The outer `try` covers the media fetch, the loop and
the commit; on any exception escaping those it calls `mark_client_error` and
rolls back, and the `(new_count, updated_count)` pair is returned in every
case. -/
def discover_from_hashtag (env : DiscoveryEnv) (now : Int)
    (hashtag category : String) (db : DbSession) : DiscoverOutcome :=
  match env.hashtag_medias with
  | .error _ =>
    { new_count := 0, updated_count := 0, db := db_rollback db
      fetched_pks := [], events := [.markError] }
  | .ok medias =>
    let st := medias.foldl (process_media env now category hashtag)
      { rows := db.rows }
    if env.commit_ok then
      { new_count := st.new_count, updated_count := st.updated_count
        db := db_commit { db with rows := st.rows }
        fetched_pks := st.fetched_pks, events := [.markSuccess] }
    else
      { new_count := st.new_count, updated_count := st.updated_count
        db := db_rollback { db with rows := st.rows }
        fetched_pks := st.fetched_pks, events := [.markError] }

/-! ## Staleness refresh (`update_stale_influencers`) -/

/-- Result of `InstagramUserService.calculate_engagement_rate`; the float
metrics are opaque values merely copied into the row, modelled as integers. -/
structure EngagementInfo where
  engagement_rate : Int
  avg_likes : Int
  avg_comments : Int
  deriving Repr, DecidableEq, Inhabited

/-- The remote side of one `update_stale_influencers` call. -/
structure RefreshEnv where
  user_of : String → Except String UserInfo
  engagement_of : String → Except String EngagementInfo

/-- The `WHERE` clause: `last_synced_at < stale_threshold OR last_synced_at
IS NULL`. -/
def is_stale (threshold : Int) (i : Influencer) : Bool :=
  match i.last_synced_at with
  | none => true
  | some t => t < threshold

/-- The `ORDER BY last_synced_at ASC NULLS FIRST` comparison. -/
def sync_le (a b : Influencer) : Bool :=
  match a.last_synced_at, b.last_synced_at with
  | none, _ => true
  | some _, none => false
  | some x, some y => x ≤ y

/-- The stale-influencer query: filter, order ascending with nulls first,
`LIMIT limit`. -/
def select_stale (now : Int) (max_age_days : Int) (limit : Nat)
    (rows : List Influencer) : List Influencer :=
  let stale_threshold := now - max_age_days * secondsPerDay
  ((rows.filter (is_stale stale_threshold)).mergeSort sync_le).take limit

/-- One iteration of the refresh loop: both remote fetches happen before any
field is written, so a failure leaves every column untouched except
`sync_error`, which records `str(e)`; on success all mutable fields are
overwritten, `sync_error` is cleared and `last_synced_at` set to now. -/
def process_influencer (env : RefreshEnv) (now : Int) (i : Influencer) :
    Influencer :=
  match env.user_of i.username with
  | .error e => { i with sync_error := some e }
  | .ok u =>
    match env.engagement_of i.username with
    | .error e => { i with sync_error := some e }
    | .ok g =>
      { i with
        follower_count := u.follower_count
        following_count := u.following_count
        media_count := u.media_count
        biography := u.biography
        is_verified := u.is_verified
        engagement_rate := g.engagement_rate
        avg_likes := g.avg_likes
        avg_comments := g.avg_comments
        tier := tier_from_follower_count u.follower_count
        last_synced_at := some now
        sync_error := none }

/-- Whether the refresh loop body succeeds for a row (both fetches return). -/
def refresh_success (env : RefreshEnv) (i : Influencer) : Bool :=
  match env.user_of i.username with
  | .error _ => false
  | .ok _ =>
    match env.engagement_of i.username with
    | .error _ => false
    | .ok _ => true

/-- `InfluencerDiscoveryService.update_stale_influencers`: returns the
`updated_count` and the selected rows after in-place processing (the final
commit persists exactly these mutations). -/
def update_stale_influencers (env : RefreshEnv) (now : Int)
    (max_age_days : Int) (limit : Nat) (rows : List Influencer) :
    Nat × List Influencer :=
  let selected := select_stale now max_age_days limit rows
  (selected.countP (refresh_success env), selected.map (process_influencer env now))

/-! ## Content monitoring (`services/monitoring_service.py`) -/

/-- `core/constants.py` `ContentStatus` (member names kept verbatim). -/
inductive ContentStatus where
  | PENDING
  | ACTIVE
  | DELETED
  | PRIVATE
  | REJECTED
  | APPROVED
  deriving Repr, DecidableEq

/-- The fields of `InstagramMediaInfo` read by the monitoring service. -/
structure MediaInfo where
  like_count : Nat
  comment_count : Nat
  play_count : Option Nat := none
  deriving Repr, DecidableEq

/-- Outcome of `media_service.get_media_info(media_pk)`: success,
`InstagramMediaNotFoundError`, or any other exception carrying `str(e)`. -/
inductive FetchOutcome where
  | ok (media : MediaInfo)
  | notFound
  | failure (msg : String)
  deriving Repr, DecidableEq

/-- The `MonitoringResult` dataclass (the `checked_at` default timestamp is
time-only bookkeeping and omitted; the Python field `exists` is a Lean
keyword and appears as `exists_flag`). -/
structure MonitoringResult where
  media_pk : String
  status : ContentStatus
  exists_flag : Bool
  is_public : Bool
  current_likes : Nat := 0
  current_comments : Nat := 0
  error_message : Option String := none
  deriving Repr, DecidableEq

/-- `pat` occurs as a prefix of `text` (character lists). -/
def startsWithChars : List Char → List Char → Bool
  | _, [] => true
  | [], _ :: _ => false
  | c :: cs, p :: ps => (c = p) && startsWithChars cs ps

/-- Python's `pat in text` substring test (character lists). -/
def containsChars : List Char → List Char → Bool
  | [], pat => pat.isEmpty
  | c :: cs, pat => startsWithChars (c :: cs) pat || containsChars cs pat

/-- `"private" in error_msg.lower()`. -/
def mentions_private (msg : String) : Bool :=
  containsChars (msg.toList.map Char.toLower) "private".toList

/-- `ContentMonitoringService.check_content_status` as a function of the
fetch outcome. -/
def check_content_status (media_pk : String) (fetch : FetchOutcome) :
    MonitoringResult :=
  match fetch with
  | .ok media =>
    { media_pk := media_pk, status := .ACTIVE, exists_flag := true
      is_public := true, current_likes := media.like_count
      current_comments := media.comment_count }
  | .notFound =>
    { media_pk := media_pk, status := .DELETED, exists_flag := false
      is_public := false
      error_message := some "Content not found (possibly deleted)" }
  | .failure msg =>
    if mentions_private msg then
      { media_pk := media_pk, status := .PRIVATE, exists_flag := true
        is_public := false, error_message := some "Content is now private" }
    else
      { media_pk := media_pk, status := .ACTIVE, exists_flag := true
        is_public := false
        error_message := some ("Error checking content: " ++ msg) }

/-- `alert_statuses = {ContentStatus.DELETED, ContentStatus.PRIVATE}`. -/
def alert_statuses : List ContentStatus := [.DELETED, .PRIVATE]

/-- `ContentMonitoringService.should_alert`. -/
def should_alert (previous_status current_status : ContentStatus) : Bool :=
  if alert_statuses.contains current_status &&
      !(alert_statuses.contains previous_status) then
    true
  else
    false

/-! ## Basic facts about the per-client pool operations -/

theorem heal_cooldown_frame (now : Int) (m : ManagedClient) :
    (heal_cooldown now m).username = m.username
    ∧ (heal_cooldown now m).request_count = m.request_count
    ∧ (heal_cooldown now m).last_request_at = m.last_request_at
    ∧ (heal_cooldown now m).daily_request_count = m.daily_request_count
    ∧ (heal_cooldown now m).daily_reset_at = m.daily_reset_at := by
  unfold heal_cooldown
  split <;> exact ⟨rfl, rfl, rfl, rfl, rfl⟩

theorem roll_daily_frame (now : Int) (m : ManagedClient) :
    (roll_daily now m).username = m.username
    ∧ (roll_daily now m).request_count = m.request_count
    ∧ (roll_daily now m).last_request_at = m.last_request_at
    ∧ (roll_daily now m).is_available = m.is_available
    ∧ (roll_daily now m).cooldown_until = m.cooldown_until
    ∧ (roll_daily now m).consecutive_errors = m.consecutive_errors := by
  unfold roll_daily
  split
  · split <;> exact ⟨rfl, rfl, rfl, rfl, rfl, rfl⟩
  · exact ⟨rfl, rfl, rfl, rfl, rfl, rfl⟩

theorem is_client_available_snd (cfg : PoolConfig) (now : Int) (m : ManagedClient) :
    (is_client_available cfg now m).2 = m
    ∨ (is_client_available cfg now m).2 = roll_daily now (heal_cooldown now m) := by
  unfold is_client_available
  dsimp only
  split
  · exact .inl rfl
  · split
    · exact .inr rfl
    · split <;> exact .inr rfl

theorem is_client_available_username (cfg : PoolConfig) (now : Int) (m : ManagedClient) :
    (is_client_available cfg now m).2.username = m.username := by
  rcases is_client_available_snd cfg now m with h | h <;> rw [h]
  rw [(roll_daily_frame now _).1, (heal_cooldown_frame now m).1]

theorem roll_daily_count_le (now : Int) (m : ManagedClient) :
    (roll_daily now m).daily_request_count ≤ m.daily_request_count := by
  unfold roll_daily
  split
  · split
    · exact Nat.zero_le _
    · exact le_refl _
  · exact le_refl _

theorem mark_client_error_counter (now : Int) (m : ManagedClient) :
    (mark_client_error now m).consecutive_errors = m.consecutive_errors + 1 := by
  unfold mark_client_error
  dsimp only
  split <;> rfl

theorem mark_client_error_frame (now : Int) (m : ManagedClient) :
    (mark_client_error now m).daily_request_count = m.daily_request_count
    ∧ (mark_client_error now m).last_request_at = m.last_request_at
    ∧ (mark_client_error now m).daily_reset_at = m.daily_reset_at := by
  unfold mark_client_error
  dsimp only
  split <;> exact ⟨rfl, rfl, rfl⟩

theorem foldl_mark_client_error_counter (ts : List Int) (m : ManagedClient) :
    (ts.foldl (fun acc t => mark_client_error t acc) m).consecutive_errors
      = m.consecutive_errors + ts.length := by
  induction ts generalizing m with
  | nil => rfl
  | cons t ts ih =>
    rw [List.foldl_cons, ih, mark_client_error_counter]
    simp
    omega

theorem foldl_mark_client_error_frame (ts : List Int) (m : ManagedClient) :
    (ts.foldl (fun acc t => mark_client_error t acc) m).daily_request_count
        = m.daily_request_count
    ∧ (ts.foldl (fun acc t => mark_client_error t acc) m).last_request_at
        = m.last_request_at
    ∧ (ts.foldl (fun acc t => mark_client_error t acc) m).daily_reset_at
        = m.daily_reset_at := by
  induction ts generalizing m with
  | nil => exact ⟨rfl, rfl, rfl⟩
  | cons t ts ih =>
    rw [List.foldl_cons]
    refine ⟨?_, ?_, ?_⟩
    · rw [(ih _).1, (mark_client_error_frame t m).1]
    · rw [(ih _).2.1, (mark_client_error_frame t m).2.1]
    · rw [(ih _).2.2, (mark_client_error_frame t m).2.2]

theorem mark_client_error_trigger (now : Int) (m : ManagedClient)
    (h : errorThreshold ≤ m.consecutive_errors + 1) :
    (mark_client_error now m).cooldown_until = some (now + errorCooldownSeconds)
    ∧ (mark_client_error now m).is_available = false := by
  unfold mark_client_error
  dsimp only
  rw [if_pos h]
  exact ⟨rfl, rfl⟩

/-! ## C2: error-threshold cooldown -/

/-- C2 (amended): after `mark_client_error` has been applied consecutively at
least `errorThreshold = 3` times with no intervening success, ending at time
`te`, the account is unavailable immediately and at every availability read
strictly before `te + 300`; the first read at or after `te + 300` clears the
cooldown and the consecutive-error counter; and the account is then eligible
again provided its daily quota is not exhausted and the minimum inter-request
spacing has elapsed (the original claim asserted unconditional eligibility,
which fails when the daily quota is exhausted — see the counterexample). -/
theorem C2_error_cooldown_self_heal (cfg : PoolConfig) (m m' : ManagedClient)
    (ts : List Int) (te : Int)
    (hm' : m' = mark_client_error te (ts.foldl (fun acc t => mark_client_error t acc) m))
    (hlen : errorThreshold ≤ ts.length + 1)
    (hte : 0 ≤ te) :
    m'.cooldown_until = some (te + errorCooldownSeconds)
    ∧ m'.is_available = false
    ∧ (∀ t : Int, t < te + errorCooldownSeconds → availB cfg t m' = false)
    ∧ (∀ t : Int, te + errorCooldownSeconds ≤ t →
        (is_client_available cfg t m').2.consecutive_errors = 0
        ∧ (is_client_available cfg t m').2.cooldown_until = none)
    ∧ (∀ t : Int, te + errorCooldownSeconds ≤ t →
        m.daily_request_count < dailyRequestLimit →
        (optTruthy m.last_request_at = false
          ∨ cfg.instagram_min_request_interval ≤ t - m.last_request_at.getD 0) →
        availB cfg t m' = true) := by
  have hfold := foldl_mark_client_error_counter ts m
  have htrig : errorThreshold ≤
      (ts.foldl (fun acc t => mark_client_error t acc) m).consecutive_errors + 1 := by
    rw [hfold]; unfold errorThreshold at hlen ⊢; omega
  have hcool : m'.cooldown_until = some (te + errorCooldownSeconds)
      ∧ m'.is_available = false := by
    rw [hm']; exact mark_client_error_trigger te _ htrig
  have hframe : m'.daily_request_count = m.daily_request_count
      ∧ m'.last_request_at = m.last_request_at
      ∧ m'.daily_reset_at = m.daily_reset_at := by
    rw [hm']
    refine ⟨?_, ?_, ?_⟩
    · rw [(mark_client_error_frame te _).1, (foldl_mark_client_error_frame ts m).1]
    · rw [(mark_client_error_frame te _).2.1, (foldl_mark_client_error_frame ts m).2.1]
    · rw [(mark_client_error_frame te _).2.2, (foldl_mark_client_error_frame ts m).2.2]
  have hpos : (0 : Int) < te + errorCooldownSeconds := by
    unfold errorCooldownSeconds; omega
  have htruthy : optTruthy m'.cooldown_until = true := by
    rw [hcool.1]; unfold optTruthy; simp; omega
  refine ⟨hcool.1, hcool.2, ?_, ?_, ?_⟩
  · intro t ht
    unfold availB is_client_available
    dsimp only
    rw [if_pos]
    rw [htruthy, hcool.1]
    simp [ht]
  · intro t ht
    have hstop : ¬(optTruthy m'.cooldown_until
        && decide (t < m'.cooldown_until.getD 0)) = true := by
      rw [htruthy, hcool.1]
      simp
      omega
    have hheal : heal_cooldown t m' =
        { m' with cooldown_until := none, is_available := true, consecutive_errors := 0 } := by
      unfold heal_cooldown
      rw [if_pos]
      rw [htruthy, hcool.1]
      simp
      omega
    unfold is_client_available
    dsimp only
    rw [if_neg hstop]
    constructor
    · split
      · rw [(roll_daily_frame t _).2.2.2.2.2, hheal]
      · split
        · rw [(roll_daily_frame t _).2.2.2.2.2, hheal]
        · rw [(roll_daily_frame t _).2.2.2.2.2, hheal]
    · split
      · rw [(roll_daily_frame t _).2.2.2.2.1, hheal]
      · split
        · rw [(roll_daily_frame t _).2.2.2.2.1, hheal]
        · rw [(roll_daily_frame t _).2.2.2.2.1, hheal]
  · intro t ht hdaily hlast
    have hstop : ¬(optTruthy m'.cooldown_until
        && decide (t < m'.cooldown_until.getD 0)) = true := by
      rw [htruthy, hcool.1]
      simp
      omega
    have hheal : heal_cooldown t m' =
        { m' with cooldown_until := none, is_available := true, consecutive_errors := 0 } := by
      unfold heal_cooldown
      rw [if_pos]
      rw [htruthy, hcool.1]
      simp
      omega
    have hdc : (roll_daily t (heal_cooldown t m')).daily_request_count
        < dailyRequestLimit := by
      have h1 := roll_daily_count_le t (heal_cooldown t m')
      have h2 : (heal_cooldown t m').daily_request_count = m.daily_request_count := by
        rw [(heal_cooldown_frame t m').2.2.2.1]
        exact hframe.1
      omega
    have hlr : (roll_daily t (heal_cooldown t m')).last_request_at
        = m.last_request_at := by
      rw [(roll_daily_frame t _).2.2.1, hheal]
      exact hframe.2.1
    have hlchk : ¬(optTruthy (roll_daily t (heal_cooldown t m')).last_request_at
        && decide (t - (roll_daily t (heal_cooldown t m')).last_request_at.getD 0
          < cfg.instagram_min_request_interval)) = true := by
      rw [hlr]
      rcases hlast with h | h
      · simp [h]
      · simp only [Bool.and_eq_true, decide_eq_true_eq, not_and]
        intro _
        omega
    unfold availB is_client_available
    dsimp only
    rw [if_neg hstop]
    rw [if_neg (by omega)]
    rw [if_neg hlchk]
    rw [(roll_daily_frame t _).2.2.2.1, hheal]

/-- C2 witness: two clients' worth of a concrete scenario — three consecutive
error reports at times 0, 1, 2 on a fresh account put it in cooldown until
302; it is unavailable at time 100, and the read at time 302 clears the
counter and makes it available again. -/
theorem C2_error_cooldown_self_heal_witness :
    availB { instagram_min_request_interval := 2 } 100
      (mark_client_error 2 ([0, 1].foldl (fun acc t => mark_client_error t acc)
        { username := "a" })) = false
    ∧ (is_client_available { instagram_min_request_interval := 2 } 302
        (mark_client_error 2 ([0, 1].foldl (fun acc t => mark_client_error t acc)
          { username := "a" }))).2.consecutive_errors = 0
    ∧ availB { instagram_min_request_interval := 2 } 302
      (mark_client_error 2 ([0, 1].foldl (fun acc t => mark_client_error t acc)
        { username := "a" })) = true := by
  have h := C2_error_cooldown_self_heal { instagram_min_request_interval := 2 }
    { username := "a" } _ [0, 1] 2 rfl (by decide) (by decide)
  exact ⟨h.2.2.1 100 (by decide), (h.2.2.2.1 302 (by decide)).1,
    h.2.2.2.2 302 (by decide) (by decide) (Or.inl rfl)⟩

/-- C2 counterexample: the claim asserts that on the first availability read
after the cooldown timestamp has passed the account is eligible again.  For
an account whose daily quota is already exhausted this fails: after three
consecutive error reports ending at time 2 (cooldown until 302), the read at
time 303 still returns unavailable, even though the cooldown has passed and
the error counter is cleared. -/
theorem C2_error_cooldown_counterexample :
    (mark_client_error 2 ([0, 1].foldl (fun acc t => mark_client_error t acc)
      { username := "a", daily_request_count := 1000,
        daily_reset_at := some 0 })).cooldown_until = some 302
    ∧ availB { instagram_min_request_interval := 2 } 303
      (mark_client_error 2 ([0, 1].foldl (fun acc t => mark_client_error t acc)
        { username := "a", daily_request_count := 1000,
          daily_reset_at := some 0 })) = false
    ∧ (is_client_available { instagram_min_request_interval := 2 } 303
        (mark_client_error 2 ([0, 1].foldl (fun acc t => mark_client_error t acc)
          { username := "a", daily_request_count := 1000,
            daily_reset_at := some 0 }))).2.consecutive_errors = 0 := by
  decide

/-! ## C3: rate-limit cooldown -/

/-- C3: a single `mark_client_rate_limited` call, regardless of the current
consecutive-error counter, marks the account unavailable immediately and
stamps the dedicated 60-second cooldown, which is strictly shorter than the
300-second error-threshold cooldown and leaves the error counter untouched. -/
theorem C3_rate_limited_dedicated_cooldown (cfg : PoolConfig) (now t : Int)
    (m : ManagedClient) :
    (mark_client_rate_limited now m).cooldown_until
        = some (now + rateLimitCooldownSeconds)
    ∧ (mark_client_rate_limited now m).is_available = false
    ∧ (mark_client_rate_limited now m).consecutive_errors = m.consecutive_errors
    ∧ (0 ≤ now → t < now + rateLimitCooldownSeconds →
        availB cfg t (mark_client_rate_limited now m) = false)
    ∧ rateLimitCooldownSeconds < errorCooldownSeconds := by
  refine ⟨rfl, rfl, rfl, ?_, by decide⟩
  intro h0 ht
  have hx : (now + rateLimitCooldownSeconds) ≠ 0 := by
    unfold rateLimitCooldownSeconds at *; omega
  unfold availB is_client_available mark_client_rate_limited
  dsimp only
  rw [if_pos]
  unfold optTruthy
  simp [hx, ht]

/-- C3 witness: concrete application at time 0, read at time 30. -/
theorem C3_rate_limited_witness :
    availB { instagram_min_request_interval := 2 } 30
      (mark_client_rate_limited 0 { username := "a", consecutive_errors := 1 })
      = false :=
  (C3_rate_limited_dedicated_cooldown { instagram_min_request_interval := 2 }
    0 30 { username := "a", consecutive_errors := 1 }).2.2.2.1
    (by decide) (by decide)

/-! ## C6: content status mapping -/

/-- C6: `check_content_status` maps `InstagramMediaNotFoundError` to
`DELETED`, permission-type errors (message mentioning "private") to
`PRIVATE`, success to `ACTIVE` with the current like/comment counters
attached, and any other failure to the unknown-error result — status kept
`ACTIVE` (active assumption preserved) with the error recorded; `DELETED` is
reported exactly on the typed not-found outcome, never on an ambiguous
error. -/
theorem C6_check_content_status_mapping (pk : String) (fetch : FetchOutcome) :
    (fetch = .notFound → (check_content_status pk fetch).status = .DELETED)
    ∧ (∀ m : MediaInfo, fetch = .ok m →
        (check_content_status pk fetch).status = .ACTIVE
        ∧ (check_content_status pk fetch).current_likes = m.like_count
        ∧ (check_content_status pk fetch).current_comments = m.comment_count
        ∧ (check_content_status pk fetch).error_message = none)
    ∧ (∀ msg, fetch = .failure msg → mentions_private msg = true →
        (check_content_status pk fetch).status = .PRIVATE)
    ∧ (∀ msg, fetch = .failure msg → mentions_private msg = false →
        (check_content_status pk fetch).status = .ACTIVE
        ∧ (check_content_status pk fetch).error_message
            = some ("Error checking content: " ++ msg))
    ∧ ((check_content_status pk fetch).status = .DELETED ↔ fetch = .notFound) := by
  cases fetch with
  | ok m => simp [check_content_status]
  | notFound => simp [check_content_status]
  | failure msg =>
    by_cases h : mentions_private msg = true
    · simp [check_content_status, h]
    · simp only [Bool.not_eq_true] at h
      simp [check_content_status, h]

/-- C6 witness: a not-found fetch is reported as deleted. -/
theorem C6_check_content_status_witness :
    (check_content_status "123" .notFound).status = .DELETED :=
  (C6_check_content_status_mapping "123" .notFound).1 rfl

/-! ## C7: alert rule -/

/-- C7: `should_alert` is true exactly when the current status is in
`{DELETED, PRIVATE}` and the previous one is not; in particular
active→deleted alerts, deleted→deleted does not, and deleted→active does
not. -/
theorem C7_should_alert_iff :
    (∀ prev cur : ContentStatus,
      should_alert prev cur = true ↔
        ((cur = .DELETED ∨ cur = .PRIVATE)
          ∧ ¬(prev = .DELETED ∨ prev = .PRIVATE)))
    ∧ should_alert .ACTIVE .DELETED = true
    ∧ should_alert .DELETED .DELETED = false
    ∧ should_alert .DELETED .ACTIVE = false := by
  refine ⟨fun prev cur => ?_, by decide, by decide, by decide⟩
  cases prev <;> cases cur <;> decide

/-! ## C9: pool status -/

/-- The total effect of `get_pool_status` on one managed client: the
availability check runs twice per client (once for the `available_clients`
count, once for the per-client row). -/
def statusTouch (cfg : PoolConfig) (now : Int) (m : ManagedClient) : ManagedClient :=
  (is_client_available cfg now (is_client_available cfg now m).2).2

theorem countAvailable_snd (cfg : PoolConfig) (now : Int) (cs : List ManagedClient) :
    (countAvailable cfg now cs).2 = cs.map (fun m => (is_client_available cfg now m).2) := by
  induction cs with
  | nil => rfl
  | cons m ms ih => simp [countAvailable, ih]

theorem statusRows_snd (cfg : PoolConfig) (now : Int) (cs : List ManagedClient) :
    (statusRows cfg now cs).2 = cs.map (fun m => (is_client_available cfg now m).2) := by
  induction cs with
  | nil => rfl
  | cons m ms ih => simp [statusRows, ih]

theorem get_pool_status_clients (cfg : PoolConfig) (now : Int) (s : PoolState) :
    (get_pool_status cfg now s).2.clients = s.clients.map (statusTouch cfg now) := by
  unfold get_pool_status
  dsimp only
  rw [statusRows_snd, countAvailable_snd, List.map_map]
  rfl

theorem is_client_available_keeps (cfg : PoolConfig) (now : Int) (m : ManagedClient) :
    (is_client_available cfg now m).2.username = m.username
    ∧ (is_client_available cfg now m).2.request_count = m.request_count
    ∧ (is_client_available cfg now m).2.last_request_at = m.last_request_at := by
  rcases is_client_available_snd cfg now m with h | h
  · rw [h]; exact ⟨rfl, rfl, rfl⟩
  · rw [h]
    refine ⟨?_, ?_, ?_⟩
    · rw [(roll_daily_frame now _).1, (heal_cooldown_frame now m).1]
    · rw [(roll_daily_frame now _).2.1, (heal_cooldown_frame now m).2.1]
    · rw [(roll_daily_frame now _).2.2.1, (heal_cooldown_frame now m).2.2.1]

theorem is_client_available_no_touch (cfg : PoolConfig) (now : Int)
    (m : ManagedClient) (hcd : optTruthy m.cooldown_until = false)
    (hdr : ∀ r, m.daily_reset_at = some r → now - r < secondsPerDay) :
    (is_client_available cfg now m).2 = m := by
  have hheal : heal_cooldown now m = m := by
    unfold heal_cooldown
    rw [hcd]
    simp
  have hroll : roll_daily now m = m := by
    unfold roll_daily
    split
    · rename_i r heq
      rw [if_neg]
      have := hdr r heq
      omega
    · rfl
  rcases is_client_available_snd cfg now m with h | h
  · exact h
  · rw [h, hheal, hroll]

theorem is_client_available_no_touch_of_unexpired (cfg : PoolConfig)
    (now : Int) (m : ManagedClient)
    (hcd : optTruthy m.cooldown_until = true → now < m.cooldown_until.getD 0)
    (hdr : ∀ r, m.daily_reset_at = some r → now - r < secondsPerDay) :
    (is_client_available cfg now m).2 = m := by
  cases h : optTruthy m.cooldown_until
  · exact is_client_available_no_touch cfg now m h hdr
  · have hlt := hcd h
    unfold is_client_available
    rw [if_pos (by rw [h]; simpa using hlt)]

/-- C9 (amended): `get_pool_status` leaves the cursor and every client's
identity and usage counters (`username`, `request_count`, `last_request_at`)
untouched, and a client whose cooldown (if any) has not yet expired and
whose daily window is not due to roll is returned entirely unchanged; but
the availability recomputation it performs does self-heal mutable health
state (the original "no field of any ManagedClient changes" claim fails —
see the counterexample). -/
theorem C9_pool_status_frame (cfg : PoolConfig) (now : Int) (s : PoolState) :
    (get_pool_status cfg now s).2.current_index = s.current_index
    ∧ (get_pool_status cfg now s).1.total_clients = s.clients.length
    ∧ (get_pool_status cfg now s).2.clients = s.clients.map (statusTouch cfg now)
    ∧ (∀ m : ManagedClient,
        (statusTouch cfg now m).username = m.username
        ∧ (statusTouch cfg now m).request_count = m.request_count
        ∧ (statusTouch cfg now m).last_request_at = m.last_request_at)
    ∧ (∀ m : ManagedClient,
        (optTruthy m.cooldown_until = true → now < m.cooldown_until.getD 0) →
        (∀ r, m.daily_reset_at = some r → now - r < secondsPerDay) →
        statusTouch cfg now m = m) := by
  refine ⟨rfl, rfl, get_pool_status_clients cfg now s, ?_, ?_⟩
  · intro m
    unfold statusTouch
    refine ⟨?_, ?_, ?_⟩
    · rw [(is_client_available_keeps cfg now _).1, (is_client_available_keeps cfg now m).1]
    · rw [(is_client_available_keeps cfg now _).2.1, (is_client_available_keeps cfg now m).2.1]
    · rw [(is_client_available_keeps cfg now _).2.2, (is_client_available_keeps cfg now m).2.2]
  · intro m hcd hdr
    unfold statusTouch
    rw [is_client_available_no_touch_of_unexpired cfg now m hcd hdr,
      is_client_available_no_touch_of_unexpired cfg now m hcd hdr]

/-- C9 witness: a client in an active, unexpired cooldown (until 100, read
at 50) with a fresh daily window passes through `get_pool_status` entirely
unchanged. -/
theorem C9_pool_status_frame_witness :
    statusTouch { instagram_min_request_interval := 2 } 50
      { username := "a", consecutive_errors := 2, cooldown_until := some 100,
        is_available := false }
      = { username := "a", consecutive_errors := 2, cooldown_until := some 100,
          is_available := false } :=
  (C9_pool_status_frame { instagram_min_request_interval := 2 } 50
    { clients := [], current_index := 0 }).2.2.2.2
    { username := "a", consecutive_errors := 2, cooldown_until := some 100,
      is_available := false }
    (fun _ => by decide) (by intro r h; cases h)

/-- C9 counterexample: `get_pool_status` is not read-only.  For a client
whose cooldown expired (cooldown until 10, read at time 20), the status call
mutates the stored client: the cooldown stamp is dropped and the
consecutive-error counter is reset from 5 to 0. -/
theorem C9_pool_status_counterexample :
    (get_pool_status { instagram_min_request_interval := 2 } 20
        { clients := [{ username := "a", consecutive_errors := 5,
                        cooldown_until := some 10, is_available := false }],
          current_index := 0 }).2.clients
      = [{ username := "a", consecutive_errors := 0,
           cooldown_until := none, is_available := true }]
    ∧ (get_pool_status { instagram_min_request_interval := 2 } 20
        { clients := [{ username := "a", consecutive_errors := 5,
                        cooldown_until := some 10, is_available := false }],
          current_index := 0 }).2.clients
      ≠ [{ username := "a", consecutive_errors := 5,
           cooldown_until := some 10, is_available := false }] := by
  decide

/-! ## C8: staleness refresh -/

theorem sync_le_trans (a b c : Influencer) (hab : sync_le a b = true)
    (hbc : sync_le b c = true) : sync_le a c = true := by
  unfold sync_le at *
  cases ha : a.last_synced_at <;> cases hb : b.last_synced_at
    <;> cases hc : c.last_synced_at <;> simp_all
  omega

theorem sync_le_total (a b : Influencer) :
    (sync_le a b || sync_le b a) = true := by
  unfold sync_le
  cases ha : a.last_synced_at <;> cases hb : b.last_synced_at <;> simp_all
  omega

/-- C8: the stale-refresh loop selects at most `limit` rows, all of them
stale (last sync older than the threshold or null), in ascending last-sync
order with nulls first; with distinct row ids no row is selected (hence
updated) twice within the call; a per-entity failure stores the error on the
entity and changes nothing else (the loop continues rather than raising),
and a per-entity success clears the stored error and records the new sync
timestamp. -/
theorem C8_refresh_stale (env : RefreshEnv) (now max_age_days : Int)
    (limit : Nat) (rows : List Influencer)
    (hids : (rows.map (fun i => i.id)).Nodup) :
    (select_stale now max_age_days limit rows).length ≤ limit
    ∧ (∀ i ∈ select_stale now max_age_days limit rows,
        is_stale (now - max_age_days * secondsPerDay) i = true)
    ∧ (select_stale now max_age_days limit rows).Pairwise
        (fun a b => sync_le a b = true)
    ∧ ((select_stale now max_age_days limit rows).map (fun i => i.id)).Nodup
    ∧ (update_stale_influencers env now max_age_days limit rows).2
        = (select_stale now max_age_days limit rows).map (process_influencer env now)
    ∧ (update_stale_influencers env now max_age_days limit rows).1
        = (select_stale now max_age_days limit rows).countP (refresh_success env)
    ∧ (∀ i : Influencer, ∀ e, env.user_of i.username = .error e →
        process_influencer env now i = { i with sync_error := some e })
    ∧ (∀ i : Influencer, ∀ u e, env.user_of i.username = .ok u →
        env.engagement_of i.username = .error e →
        process_influencer env now i = { i with sync_error := some e })
    ∧ (∀ i : Influencer, refresh_success env i = true →
        (process_influencer env now i).sync_error = none
        ∧ (process_influencer env now i).last_synced_at = some now) := by
  refine ⟨?_, ?_, ?_, ?_, rfl, rfl, ?_, ?_, ?_⟩
  · unfold select_stale
    rw [List.length_take]
    exact min_le_left _ _
  · intro i hi
    unfold select_stale at hi
    have h1 := List.mem_of_mem_take hi
    have h2 := (List.mergeSort_perm (rows.filter
      (is_stale (now - max_age_days * secondsPerDay))) sync_le).mem_iff.mp h1
    exact List.of_mem_filter h2
  · unfold select_stale
    exact ((List.sorted_mergeSort sync_le_trans sync_le_total _).sublist
      (List.take_sublist _ _))
  · unfold select_stale
    have h1 : ((rows.filter (is_stale (now - max_age_days * secondsPerDay))).map
        (fun i => i.id)).Nodup :=
      ((List.filter_sublist rows).map (fun i : Influencer => i.id)).nodup hids
    have h2 : (((rows.filter (is_stale (now - max_age_days * secondsPerDay))).mergeSort
        sync_le).map (fun i => i.id)).Nodup :=
      (((List.mergeSort_perm _ sync_le).map (fun i : Influencer => i.id)).nodup_iff).mpr h1
    exact ((List.take_sublist _ _).map (fun i : Influencer => i.id)).nodup h2
  · intro i e h
    unfold process_influencer
    rw [h]
  · intro i u e hu he
    unfold process_influencer
    rw [hu, he]
  · intro i h
    unfold refresh_success at h
    rcases hu : env.user_of i.username with e | u
    · rw [hu] at h; cases h
    · rcases he : env.engagement_of i.username with e | g
      · rw [hu, he] at h; cases h
      · unfold process_influencer
        rw [hu, he]
        exact ⟨rfl, rfl⟩

/-- C8 witness: concrete two-row table, limit 1 — the older row (null sync)
is selected and refreshed. -/
theorem C8_refresh_stale_witness :
    (select_stale 1000000 7 1
      [{ id := 1, platform_uid := "p1", username := "a", last_synced_at := some 999 },
       { id := 2, platform_uid := "p2", username := "b", last_synced_at := none }]).length
      ≤ 1 :=
  (C8_refresh_stale
    { user_of := fun _ => .error "x", engagement_of := fun _ => .error "x" }
    1000000 7 1
    [{ id := 1, platform_uid := "p1", username := "a", last_synced_at := some 999 },
     { id := 2, platform_uid := "p2", username := "b", last_synced_at := none }]
    (by decide)).1

/-! ## C4 / C5 / C10: discovery orchestrator -/

theorem process_media_frame (env : DiscoveryEnv) (now : Int)
    (category hashtag : String) (st : DiscState) (mpk : String) :
    (process_media env now category hashtag st mpk).rows = st.rows
    ∧ (process_media env now category hashtag st mpk).new_count = st.new_count
    ∧ (process_media env now category hashtag st mpk).updated_count
        = st.updated_count := by
  unfold process_media
  rcases hmi : env.media_info mpk with e | uv
  · exact ⟨rfl, rfl, rfl⟩
  · dsimp only
    split
    · exact ⟨rfl, rfl, rfl⟩
    · split
      · exact ⟨rfl, rfl, rfl⟩
      · rcases hui : env.user_info ((media_id_parts mpk).getD 1 "") with e | u
        · exact ⟨rfl, rfl, rfl⟩
        · dsimp only
          split <;> exact ⟨rfl, rfl, rfl⟩

theorem foldl_process_media_frame (env : DiscoveryEnv) (now : Int)
    (category hashtag : String) :
    ∀ (ms : List String) (st : DiscState),
      (ms.foldl (process_media env now category hashtag) st).rows = st.rows
      ∧ (ms.foldl (process_media env now category hashtag) st).new_count
          = st.new_count
      ∧ (ms.foldl (process_media env now category hashtag) st).updated_count
          = st.updated_count := by
  intro ms
  induction ms with
  | nil => intro st; exact ⟨rfl, rfl, rfl⟩
  | cons m ms ih =>
    intro st
    have h1 := process_media_frame env now category hashtag st m
    have h2 := ih (process_media env now category hashtag st m)
    refine ⟨?_, ?_, ?_⟩
    · rw [List.foldl_cons, h2.1, h1.1]
    · rw [List.foldl_cons, h2.2.1, h1.2.1]
    · rw [List.foldl_cons, h2.2.2, h1.2.2]

theorem process_media_fetch_inv (env : DiscoveryEnv) (now : Int)
    (category hashtag : String) (st : DiscState) (mpk : String)
    (hnd : st.fetched_pks.Nodup)
    (hsub : ∀ p ∈ st.fetched_pks, p ∈ st.processed_pks) :
    (process_media env now category hashtag st mpk).fetched_pks.Nodup
    ∧ (∀ p ∈ (process_media env now category hashtag st mpk).fetched_pks,
        p ∈ (process_media env now category hashtag st mpk).processed_pks) := by
  unfold process_media
  rcases hmi : env.media_info mpk with e | uv
  · exact ⟨hnd, hsub⟩
  · dsimp only
    split
    · exact ⟨hnd, hsub⟩
    · split
      · exact ⟨hnd, hsub⟩
      · rename_i hguard
        have hnotmem : (media_id_parts mpk).getD 1 "" ∉ st.processed_pks := by
          intro hmem
          have hc : st.processed_pks.contains ((media_id_parts mpk).getD 1 "")
              = true := List.elem_iff.mpr hmem
          exact hguard (by rw [hc, Bool.or_true])
        have hnd1 : ((media_id_parts mpk).getD 1 "" :: st.fetched_pks).Nodup :=
          List.nodup_cons.mpr ⟨fun hm => hnotmem (hsub _ hm), hnd⟩
        have hsub1 : ∀ p ∈ (media_id_parts mpk).getD 1 "" :: st.fetched_pks,
            p ∈ (media_id_parts mpk).getD 1 "" :: st.processed_pks := by
          intro p hp
          rcases List.mem_cons.mp hp with h | h
          · exact h ▸ List.mem_cons_self _ _
          · exact List.mem_cons_of_mem _ (hsub _ h)
        rcases hui : env.user_info ((media_id_parts mpk).getD 1 "") with e | u
        · exact ⟨hnd1, hsub1⟩
        · dsimp only
          split
          · exact ⟨hnd1, hsub1⟩
          · exact ⟨hnd1, hsub1⟩

theorem foldl_process_media_fetch_inv (env : DiscoveryEnv) (now : Int)
    (category hashtag : String) :
    ∀ (ms : List String) (st : DiscState),
      st.fetched_pks.Nodup → (∀ p ∈ st.fetched_pks, p ∈ st.processed_pks) →
      (ms.foldl (process_media env now category hashtag) st).fetched_pks.Nodup := by
  intro ms
  induction ms with
  | nil => intro st hnd _; exact hnd
  | cons m ms ih =>
    intro st hnd hsub
    have h := process_media_fetch_inv env now category hashtag st m hnd hsub
    rw [List.foldl_cons]
    exact ih _ h.1 h.2

/-- C4: within one `discover_from_hashtag` call, each candidate id is
fetched and processed at most once (the `get_user_info_by_pk` log has no
repeats, via the `processed_pks` dedup set), and the minimum-requirements
filter is exactly the pure predicate `follower_count ≥ 1000 ∧
media_count ≥ 10 ∧ ¬ is_private`.  Moreover no catalog entry is ever created
by the call: every qualifying candidate's `_get_by_instagram_pk` lookup
raises `AttributeError` into the per-media handler (the model has no
`instagram_pk` column), so the post-call session rows are the pre-call
working rows (successful commit) or the last committed rows (rollback) —
a fortiori no two entries are created for the same external id, and no entry
is created for a candidate failing the filter. -/
theorem C4_discover_dedup_and_filter (env : DiscoveryEnv) (now : Int)
    (hashtag category : String) (db : DbSession) :
    (∀ u : UserInfo, meets_requirements u = true ↔
      (minimumFollowerCount ≤ u.follower_count
        ∧ minimumMediaCount ≤ u.media_count
        ∧ u.is_private = false))
    ∧ (discover_from_hashtag env now hashtag category db).fetched_pks.Nodup
    ∧ ((discover_from_hashtag env now hashtag category db).db.rows = db.rows
        ∨ (discover_from_hashtag env now hashtag category db).db.rows = db.saved)
    ∧ (discover_from_hashtag env now hashtag category db).new_count = 0
    ∧ (discover_from_hashtag env now hashtag category db).updated_count = 0 := by
  refine ⟨?_, ?_, ?_, ?_, ?_⟩
  · intro u
    unfold meets_requirements
    constructor
    · intro h
      by_cases h1 : u.follower_count < minimumFollowerCount
      · rw [if_pos h1] at h; exact absurd h (by decide)
      · by_cases h2 : u.media_count < minimumMediaCount
        · rw [if_neg h1, if_pos h2] at h; exact absurd h (by decide)
        · by_cases h3 : u.is_private = true
          · rw [if_neg h1, if_neg h2, if_pos h3] at h; exact absurd h (by decide)
          · exact ⟨by omega, by omega, by simpa using h3⟩
    · rintro ⟨h1, h2, h3⟩
      rw [if_neg (by omega), if_neg (by omega), if_neg (by simp [h3])]
  · unfold discover_from_hashtag
    rcases hms : env.hashtag_medias with e | ms
    · exact List.nodup_nil
    · dsimp only
      have h := foldl_process_media_fetch_inv env now category hashtag ms
        { rows := db.rows } List.nodup_nil (fun p hp => absurd hp (List.not_mem_nil p))
      split
      · exact h
      · exact h
  · unfold discover_from_hashtag
    rcases hms : env.hashtag_medias with e | ms
    · exact Or.inr rfl
    · dsimp only
      have h := (foldl_process_media_frame env now category hashtag ms
        { rows := db.rows }).1
      split
      · exact Or.inl h
      · exact Or.inr rfl
  · unfold discover_from_hashtag
    rcases hms : env.hashtag_medias with e | ms
    · rfl
    · dsimp only
      have h := (foldl_process_media_frame env now category hashtag ms
        { rows := db.rows }).2.1
      split
      · exact h
      · exact h
  · unfold discover_from_hashtag
    rcases hms : env.hashtag_medias with e | ms
    · rfl
    · dsimp only
      have h := (foldl_process_media_frame env now category hashtag ms
        { rows := db.rows }).2.2
      split
      · exact h
      · exact h

/-- C5 (amended): a per-candidate exception (a failing `get_media_info` or a
failing `get_user_info_by_pk`) leaves the counts and the rows unchanged —
the candidate is skipped and the loop goes on — but, contrary to the original
claim, it does NOT report the error to the pool: `mark_client_error` is
called exactly when an exception escapes the whole batch (hashtag fetch or
commit failure), and a fully caught loop with a successful commit reports
only `mark_client_success`. -/
theorem C5_candidate_failure_skips_without_report (env : DiscoveryEnv)
    (now : Int) (hashtag category : String) :
    (∀ (st : DiscState) (mpk : String) (e : String),
      env.media_info mpk = Except.error e →
      process_media env now category hashtag st mpk = st)
    ∧ (∀ (st : DiscState) (mpk : String) (e : String),
        env.user_info ((media_id_parts mpk).getD 1 "") = Except.error e →
        (process_media env now category hashtag st mpk).rows = st.rows
        ∧ (process_media env now category hashtag st mpk).new_count = st.new_count
        ∧ (process_media env now category hashtag st mpk).updated_count
            = st.updated_count)
    ∧ (∀ (ms : List String) (db : DbSession),
        env.hashtag_medias = Except.ok ms → env.commit_ok = true →
        (discover_from_hashtag env now hashtag category db).events
          = [PoolEvent.markSuccess])
    ∧ (∀ (e : String) (db : DbSession), env.hashtag_medias = Except.error e →
        (discover_from_hashtag env now hashtag category db).events
          = [PoolEvent.markError])
    ∧ (∀ (ms : List String) (db : DbSession),
        env.hashtag_medias = Except.ok ms → env.commit_ok = false →
        (discover_from_hashtag env now hashtag category db).events
          = [PoolEvent.markError]) := by
  refine ⟨?_, ?_, ?_, ?_, ?_⟩
  · intro st mpk e h
    unfold process_media
    rw [h]
  · intro st mpk e h
    exact process_media_frame env now category hashtag st mpk
  · intro ms db hms hc
    unfold discover_from_hashtag
    rw [hms]
    dsimp only
    rw [if_pos hc]
  · intro e db hms
    unfold discover_from_hashtag
    rw [hms]
  · intro ms db hms hc
    unfold discover_from_hashtag
    rw [hms]
    dsimp only
    rw [if_neg (by simp [hc])]

/-- C5 counterexample: one post, whose candidate's profile fetch fails;
the claim demands `mark_client_error` for the account used, but the call
(which attempted the candidate — see the fetch log) emits only
`mark_client_success`. -/
theorem C5_candidate_failure_counterexample :
    (DiscoveryEnv.user_info
      { hashtag_medias := Except.ok ["1_7"]
        media_info := fun _ => Except.ok ()
        user_info := fun _ => Except.error "boom"
        commit_ok := true } "7" = Except.error "boom")
    ∧ (discover_from_hashtag
        { hashtag_medias := Except.ok ["1_7"]
          media_info := fun _ => Except.ok ()
          user_info := fun _ => Except.error "boom"
          commit_ok := true }
        0 "travel" "Travel" { rows := [], saved := [] }).fetched_pks = ["7"]
    ∧ (discover_from_hashtag
        { hashtag_medias := Except.ok ["1_7"]
          media_info := fun _ => Except.ok ()
          user_info := fun _ => Except.error "boom"
          commit_ok := true }
        0 "travel" "Travel" { rows := [], saved := [] }).events
      = [PoolEvent.markSuccess]
    ∧ PoolEvent.markError ∉ (discover_from_hashtag
        { hashtag_medias := Except.ok ["1_7"]
          media_info := fun _ => Except.ok ()
          user_info := fun _ => Except.error "boom"
          commit_ok := true }
        0 "travel" "Travel" { rows := [], saved := [] }).events := by
  refine ⟨rfl, by decide, by decide, by decide⟩

/-- C5 witness: applying the amended theorem at the counterexample
environment — a failing candidate fetch leaves counts and rows unchanged. -/
theorem C5_candidate_failure_witness :
    (process_media
      { hashtag_medias := Except.ok ["1_7"]
        media_info := fun _ => Except.ok ()
        user_info := fun _ => Except.error "boom"
        commit_ok := true }
      0 "Travel" "travel" { rows := [] } "1_7").rows = [] :=
  ((C5_candidate_failure_skips_without_report
    { hashtag_medias := Except.ok ["1_7"]
      media_info := fun _ => Except.ok ()
      user_info := fun _ => Except.error "boom"
      commit_ok := true }
    0 "travel" "Travel").2.1 { rows := [] } "1_7" "boom" rfl).1

/-- A feed of one post whose candidate (user 7) is public with 2000 followers
and 20 media — it passes the minimum-requirements filter — and whose commit
succeeds. -/
def qualifyingEnv : DiscoveryEnv :=
  { hashtag_medias := Except.ok ["1_7"]
    media_info := fun _ => Except.ok ()
    user_info := fun _ =>
      Except.ok { pk := "7", username := "A", follower_count := 2000,
                  media_count := 20 }
    commit_ok := true }

/-- C10 (code bug): the single end-of-call commit persists exactly the
pre-call working rows, a failing hashtag fetch or commit rolls the session
back to its last committed state, and the call always returns its
`(new_count, updated_count)` pair — but the claim's "the returned counts may
then be non-zero" is impossible: both counts are always zero, because every
qualifying candidate's `_get_by_instagram_pk` lookup raises `AttributeError`
(the `Influencer` model defines `platform_uid`, not `instagram_pk`), which
the per-media handler swallows.  The final conjuncts evaluate the code on a
feed whose sole candidate passes the filter: it is fetched, yet the count
stays zero. -/
theorem C10_discover_transaction (env : DiscoveryEnv) (now : Int)
    (hashtag category : String) (db : DbSession) (e : String)
    (ms : List String) :
    discover_from_hashtag { env with hashtag_medias := Except.error e }
        now hashtag category db
      = { new_count := 0, updated_count := 0, db := db_rollback db,
          fetched_pks := [], events := [PoolEvent.markError] }
    ∧ (discover_from_hashtag
        { env with hashtag_medias := Except.ok ms, commit_ok := false }
        now hashtag category db).db = db_rollback db
    ∧ (discover_from_hashtag
        { env with hashtag_medias := Except.ok ms, commit_ok := true }
        now hashtag category db).db = db_commit db
    ∧ (discover_from_hashtag env now hashtag category db).new_count = 0
    ∧ (discover_from_hashtag env now hashtag category db).updated_count = 0
    ∧ meets_requirements { pk := "7", username := "A",
                           follower_count := 2000, media_count := 20 } = true
    ∧ (discover_from_hashtag qualifyingEnv 0 "travel" "Travel"
        { rows := [], saved := [] }).fetched_pks = ["7"]
    ∧ (discover_from_hashtag qualifyingEnv 0 "travel" "Travel"
        { rows := [], saved := [] }).new_count = 0
    ∧ (discover_from_hashtag qualifyingEnv 0 "travel" "Travel"
        { rows := [], saved := [] }).updated_count = 0 := by
  refine ⟨rfl, ?_, ?_, ?_, ?_, by decide, by decide, by decide, by decide⟩
  · unfold discover_from_hashtag
    dsimp only
    rw [if_neg (by simp)]
    rfl
  · unfold discover_from_hashtag
    dsimp only
    rw [if_pos rfl]
    have h := (foldl_process_media_frame
      { env with hashtag_medias := Except.ok ms, commit_ok := true }
      now category hashtag ms { rows := db.rows }).1
    unfold db_commit
    rw [h]
  · unfold discover_from_hashtag
    rcases hms : env.hashtag_medias with e' | ms'
    · rfl
    · dsimp only
      have h := (foldl_process_media_frame env now category hashtag ms'
        { rows := db.rows }).2.1
      split
      · exact h
      · exact h
  · unfold discover_from_hashtag
    rcases hms : env.hashtag_medias with e' | ms'
    · rfl
    · dsimp only
      have h := (foldl_process_media_frame env now category hashtag ms'
        { rows := db.rows }).2.2
      split
      · exact h
      · exact h

/-! ## C1: round-robin acquisition -/

theorem pos_add_mod_ne (idx c len : Nat) (hidx : idx < len) (hc1 : 0 < c)
    (hc2 : c < len) : (idx + c) % len ≠ idx := by
  rcases Nat.lt_or_ge (idx + c) len with h | h
  · rw [Nat.mod_eq_of_lt h]; omega
  · rw [Nat.mod_eq_sub_mod h, Nat.mod_eq_of_lt (by omega)]; omega

theorem exists_offset_mod (idx q len : Nat) (hidx : idx < len) (hq : q < len) :
    ∃ m, m < len ∧ (idx + m) % len = q := by
  by_cases hc : idx ≤ q
  · refine ⟨q - idx, by omega, ?_⟩
    rw [Nat.add_sub_cancel' hc, Nat.mod_eq_of_lt hq]
  · refine ⟨len - idx + q, by omega, ?_⟩
    have h : idx + (len - idx + q) = len + q := by omega
    rw [h, Nat.add_mod_left, Nat.mod_eq_of_lt hq]

theorem map_username_set (cs : List ManagedClient) (i : Nat) (m' : ManagedClient)
    (hi : i < cs.length) (hu : m'.username = (cs.getD i default).username) :
    (cs.set i m').map (fun m => m.username) = cs.map (fun m => m.username) := by
  apply List.ext_getElem (by simp)
  intro n h1 h2
  simp only [List.getElem_map, List.getElem_set]
  split
  · rename_i heq
    subst heq
    rw [hu, List.getD_eq_getElem cs default hi]
  · rfl

theorem scanGo_ok_spec (cfg : PoolConfig) (now : Int) :
    ∀ (k : Nat) (cs : List ManagedClient) (idx j : Nat),
      idx < cs.length → k ≤ cs.length → j < k →
      (∀ i, i < j →
        availB cfg now (cs.getD ((idx + i) % cs.length) default) = false) →
      availB cfg now (cs.getD ((idx + j) % cs.length) default) = true →
      ∃ cs' : List ManagedClient,
        scanGo cfg now k cs idx
          = .ok (cs.getD ((idx + j) % cs.length) default).username
              ⟨cs', (idx + j + 1) % cs.length⟩
        ∧ cs'.map (fun m => m.username) = cs.map (fun m => m.username)
        ∧ cs'.length = cs.length := by
  intro k
  induction k with
  | zero => intro cs idx j hidx hk hj hbef hav; omega
  | succ k ih =>
    intro cs idx j hidx hk hj hbef hav
    have hlen0 : 0 < cs.length := Nat.lt_of_le_of_lt (Nat.zero_le idx) hidx
    have hidxmod : idx % cs.length = idx := Nat.mod_eq_of_lt hidx
    have hsome : cs[idx]? = some (cs.getD idx default) := by
      rw [List.getElem?_eq_getElem hidx, List.getD_eq_getElem cs default hidx]
    simp only [scanGo]
    rw [hsome]
    dsimp only
    by_cases hj0 : j = 0
    · subst hj0
      have hav0 : (is_client_available cfg now (cs.getD idx default)).1 = true := by
        have h := hav
        rw [Nat.add_zero, hidxmod] at h
        exact h
      rw [if_pos hav0]
      have husr : (update_client_usage now
          (is_client_available cfg now (cs.getD idx default)).2).username
          = (cs.getD idx default).username :=
        is_client_available_username cfg now (cs.getD idx default)
      refine ⟨cs.set idx (update_client_usage now
        (is_client_available cfg now (cs.getD idx default)).2), ?_, ?_, ?_⟩
      · simp only [Nat.add_zero]
        rw [hidxmod, husr]
      · exact map_username_set cs idx _ hidx husr
      · simp
    · obtain ⟨j', rfl⟩ : ∃ j', j = j' + 1 := ⟨j - 1, by omega⟩
      have hav0 : (is_client_available cfg now (cs.getD idx default)).1 = false := by
        have h := hbef 0 (by omega)
        rw [Nat.add_zero, hidxmod] at h
        exact h
      rw [if_neg (by rw [hav0]; exact Bool.false_ne_true)]
      have hm2u : (is_client_available cfg now (cs.getD idx default)).2.username
          = (cs.getD idx default).username :=
        is_client_available_username cfg now (cs.getD idx default)
      have hlenset : (cs.set idx
          (is_client_available cfg now (cs.getD idx default)).2).length
          = cs.length := by simp
      have hidx2 : (idx + 1) % cs.length < cs.length := Nat.mod_lt _ hlen0
      have htrans : ∀ i : Nat, i + 1 < cs.length →
          (cs.set idx (is_client_available cfg now (cs.getD idx default)).2).getD
            (((idx + 1) % cs.length + i)
              % (cs.set idx (is_client_available cfg now (cs.getD idx default)).2).length)
            default
            = cs.getD ((idx + (i + 1)) % cs.length) default := by
        intro i hi
        rw [hlenset, Nat.mod_add_mod]
        have harith : idx + 1 + i = idx + (i + 1) := by omega
        rw [harith]
        have hne : (idx + (i + 1)) % cs.length ≠ idx :=
          pos_add_mod_ne idx (i + 1) cs.length hidx (Nat.succ_pos i) hi
        have hplt : (idx + (i + 1)) % cs.length < cs.length := Nat.mod_lt _ hlen0
        rw [List.getD_eq_getElem _ default (by rw [hlenset]; exact hplt),
          List.getD_eq_getElem cs default hplt]
        exact List.getElem_set_ne (Ne.symm hne) _
      obtain ⟨cs', heq, husr, hlen'⟩ := ih
        (cs.set idx (is_client_available cfg now (cs.getD idx default)).2)
        ((idx + 1) % cs.length) j'
        (by rw [hlenset]; exact hidx2)
        (by rw [hlenset]; omega)
        (Nat.lt_of_succ_lt_succ hj)
        (by
          intro i hi
          rw [htrans i (by omega)]
          exact hbef (i + 1) (by omega))
        (by
          rw [htrans j' (by omega)]
          exact hav)
      refine ⟨cs', ?_, ?_, ?_⟩
      · rw [heq]
        have hu : ((cs.set idx
            (is_client_available cfg now (cs.getD idx default)).2).getD
              (((idx + 1) % cs.length + j')
                % (cs.set idx
                    (is_client_available cfg now (cs.getD idx default)).2).length)
              default).username
            = (cs.getD ((idx + (j' + 1)) % cs.length) default).username := by
          rw [htrans j' (by omega)]
        have hc : ((idx + 1) % cs.length + j' + 1)
              % (cs.set idx
                  (is_client_available cfg now (cs.getD idx default)).2).length
            = (idx + (j' + 1) + 1) % cs.length := by
          rw [hlenset]
          have h2 : (idx + 1) % cs.length + j' + 1
              = (idx + 1) % cs.length + (j' + 1) := by omega
          rw [h2, Nat.mod_add_mod]
          have h3 : idx + 1 + (j' + 1) = idx + (j' + 1) + 1 := by omega
          rw [h3]
        rw [hu, hc]
      · rw [husr]
        exact map_username_set cs idx _ hidx hm2u
      · rw [hlen', hlenset]

theorem scanGo_err_spec (cfg : PoolConfig) (now : Int) :
    ∀ (k : Nat) (cs : List ManagedClient) (idx : Nat),
      idx < cs.length → k ≤ cs.length →
      (∀ i, i < k →
        availB cfg now (cs.getD ((idx + i) % cs.length) default) = false) →
      ∃ cs' : List ManagedClient, ∃ idx' : Nat,
        scanGo cfg now k cs idx = .err ⟨cs', idx'⟩ := by
  intro k
  induction k with
  | zero => intro cs idx hidx hk hall; exact ⟨cs, idx, rfl⟩
  | succ k ih =>
    intro cs idx hidx hk hall
    have hlen0 : 0 < cs.length := Nat.lt_of_le_of_lt (Nat.zero_le idx) hidx
    have hidxmod : idx % cs.length = idx := Nat.mod_eq_of_lt hidx
    have hsome : cs[idx]? = some (cs.getD idx default) := by
      rw [List.getElem?_eq_getElem hidx, List.getD_eq_getElem cs default hidx]
    simp only [scanGo]
    rw [hsome]
    dsimp only
    have hav0 : (is_client_available cfg now (cs.getD idx default)).1 = false := by
      have h := hall 0 (Nat.succ_pos k)
      rw [Nat.add_zero, hidxmod] at h
      exact h
    rw [if_neg (by rw [hav0]; exact Bool.false_ne_true)]
    have hlenset : (cs.set idx
        (is_client_available cfg now (cs.getD idx default)).2).length
        = cs.length := by simp
    have htrans : ∀ i : Nat, i + 1 < cs.length →
        (cs.set idx (is_client_available cfg now (cs.getD idx default)).2).getD
          (((idx + 1) % cs.length + i)
            % (cs.set idx (is_client_available cfg now (cs.getD idx default)).2).length)
          default
          = cs.getD ((idx + (i + 1)) % cs.length) default := by
      intro i hi
      rw [hlenset, Nat.mod_add_mod]
      have harith : idx + 1 + i = idx + (i + 1) := by omega
      rw [harith]
      have hne : (idx + (i + 1)) % cs.length ≠ idx :=
        pos_add_mod_ne idx (i + 1) cs.length hidx (Nat.succ_pos i) hi
      have hplt : (idx + (i + 1)) % cs.length < cs.length := Nat.mod_lt _ hlen0
      rw [List.getD_eq_getElem _ default (by rw [hlenset]; exact hplt),
        List.getD_eq_getElem cs default hplt]
      exact List.getElem_set_ne (Ne.symm hne) _
    exact ih (cs.set idx (is_client_available cfg now (cs.getD idx default)).2)
      ((idx + 1) % cs.length)
      (by rw [hlenset]; exact Nat.mod_lt _ hlen0)
      (by rw [hlenset]; omega)
      (by
        intro i hi
        rw [htrans i (by omega)]
        exact hall (i + 1) (by omega))

theorem get_client_not_empty (cfg : PoolConfig) (now : Int) (s : PoolState)
    (hlen0 : 0 < s.clients.length) :
    get_client cfg now s
      = scanGo cfg now s.clients.length s.clients s.current_index := by
  unfold get_client
  rw [if_neg]
  intro h
  rw [List.isEmpty_iff] at h
  rw [h] at hlen0
  exact absurd hlen0 (by simp)

/-- The availability verdicts along the scan (positions relative to the
cursor), as a predicate. -/
def availAtOffset (cfg : PoolConfig) (now : Int) (s : PoolState) (i : Nat) : Bool :=
  availB cfg now
    (s.clients.getD ((s.current_index + i) % s.clients.length) default)

theorem get_client_err_iff (cfg : PoolConfig) (now : Int) (s : PoolState)
    (hwf : s.current_index < s.clients.length) :
    (∃ s', get_client cfg now s = .err s')
      ↔ ∀ m ∈ s.clients, availB cfg now m = false := by
  have hlen0 : 0 < s.clients.length := Nat.lt_of_le_of_lt (Nat.zero_le _) hwf
  constructor
  · rintro ⟨s', hs'⟩ m hm
    cases h : availB cfg now m
    · rfl
    exfalso
    rcases List.mem_iff_getElem.mp hm with ⟨q, hq, hqm⟩
    obtain ⟨j, hjlt, hjq⟩ := exists_offset_mod s.current_index q s.clients.length hwf hq
    have hex : ∃ j, j < s.clients.length ∧ availAtOffset cfg now s j = true := by
      refine ⟨j, hjlt, ?_⟩
      unfold availAtOffset
      rw [hjq, List.getD_eq_getElem _ default hq, hqm]
      exact h
    have hfind := Nat.find_spec hex
    have hbef : ∀ i, i < Nat.find hex → availAtOffset cfg now s i = false := by
      intro i hi
      have hmin := Nat.find_min hex hi
      cases h' : availAtOffset cfg now s i
      · rfl
      · exact absurd ⟨Nat.lt_trans hi hfind.1, h'⟩ hmin
    obtain ⟨cs', heq, _, _⟩ := scanGo_ok_spec cfg now s.clients.length s.clients
      s.current_index (Nat.find hex) hwf (le_refl _) hfind.1
      (fun i hi => hbef i hi) hfind.2
    rw [get_client_not_empty cfg now s hlen0, heq] at hs'
    cases hs'
  · intro hall
    obtain ⟨cs', idx', heq⟩ := scanGo_err_spec cfg now s.clients.length s.clients
      s.current_index hwf (le_refl _)
      (by
        intro i hi
        apply hall
        have hlt : (s.current_index + i) % s.clients.length < s.clients.length :=
          Nat.mod_lt _ hlen0
        rw [List.getD_eq_getElem _ default hlt]
        exact List.getElem_mem hlt)
    exact ⟨⟨cs', idx'⟩, by rw [get_client_not_empty cfg now s hlen0]; exact heq⟩

theorem get_client_ok_spec (cfg : PoolConfig) (now : Int) (s : PoolState)
    (u : String) (s' : PoolState)
    (hwf : s.current_index < s.clients.length)
    (h : get_client cfg now s = .ok u s') :
    ∃ j, j < s.clients.length
      ∧ (∀ i, i < j → availAtOffset cfg now s i = false)
      ∧ availAtOffset cfg now s j = true
      ∧ u = (s.clients.getD ((s.current_index + j) % s.clients.length)
          default).username
      ∧ s'.current_index = (s.current_index + j + 1) % s.clients.length
      ∧ s'.clients.map (fun m => m.username)
          = s.clients.map (fun m => m.username)
      ∧ s'.clients.length = s.clients.length := by
  have hlen0 : 0 < s.clients.length := Nat.lt_of_le_of_lt (Nat.zero_le _) hwf
  by_cases hex : ∃ j, j < s.clients.length ∧ availAtOffset cfg now s j = true
  · have hfind := Nat.find_spec hex
    have hbef : ∀ i, i < Nat.find hex → availAtOffset cfg now s i = false := by
      intro i hi
      have hmin := Nat.find_min hex hi
      cases h' : availAtOffset cfg now s i
      · rfl
      · exact absurd ⟨Nat.lt_trans hi hfind.1, h'⟩ hmin
    obtain ⟨cs', heq, husr, hlen'⟩ := scanGo_ok_spec cfg now s.clients.length
      s.clients s.current_index (Nat.find hex) hwf (le_refl _) hfind.1
      (fun i hi => hbef i hi) hfind.2
    rw [get_client_not_empty cfg now s hlen0, heq] at h
    injection h with h1 h2
    refine ⟨Nat.find hex, hfind.1, hbef, hfind.2, h1.symm, ?_, ?_, ?_⟩
    · rw [← h2]
    · rw [← h2]
      exact husr
    · rw [← h2]
      exact hlen'
  · exfalso
    have hall : ∀ i, i < s.clients.length → availAtOffset cfg now s i = false := by
      intro i hi
      cases h' : availAtOffset cfg now s i
      · rfl
      · exact absurd ⟨i, hi, h'⟩ hex
    obtain ⟨cs', idx', heq⟩ := scanGo_err_spec cfg now s.clients.length s.clients
      s.current_index hwf (le_refl _) hall
    rw [get_client_not_empty cfg now s hlen0, heq] at h
    cases h

/-- The position (index into the client list) that a `get_client` call at
state `s` selects: the first position in cursor order whose availability
check passes, every earlier scanned position having failed its check. -/
def selectsAt (cfg : PoolConfig) (now : Int) (s : PoolState) (p : Nat) : Prop :=
  ∃ j, j < s.clients.length
    ∧ p = (s.current_index + j) % s.clients.length
    ∧ availB cfg now (s.clients.getD p default) = true
    ∧ ∀ i, i < j → availAtOffset cfg now s i = false

/-- Position `q` was offered (availability-checked) during the scan of a
`get_client` call at state `s`: it lies within the scanned arc — at most one
full revolution from the cursor — and every position scanned before it
failed its check. -/
def offered (cfg : PoolConfig) (now : Int) (s : PoolState) (q : Nat) : Prop :=
  ∃ i, i < s.clients.length
    ∧ q = (s.current_index + i) % s.clients.length
    ∧ ∀ i', i' < i → availAtOffset cfg now s i' = false

theorem get_client_ok_selectsAt (cfg : PoolConfig) (now : Int) (s : PoolState)
    (u : String) (s' : PoolState)
    (hwf : s.current_index < s.clients.length)
    (h : get_client cfg now s = .ok u s') :
    ∃ p, selectsAt cfg now s p
      ∧ u = (s.clients.getD p default).username
      ∧ s'.current_index = (p + 1) % s.clients.length
      ∧ s'.clients.map (fun m => m.username)
          = s.clients.map (fun m => m.username)
      ∧ s'.clients.length = s.clients.length := by
  obtain ⟨j, hj, hbef, hav, hu, hc, hm, hl⟩ := get_client_ok_spec cfg now s u s' hwf h
  refine ⟨(s.current_index + j) % s.clients.length,
    ⟨j, hj, rfl, hav, hbef⟩, hu, ?_, hm, hl⟩
  rw [hc, ← Nat.mod_add_mod]

theorem selectsAt_unique_offset (cfg : PoolConfig) (now : Int) (s : PoolState)
    {j j' : Nat}
    (hav : availAtOffset cfg now s j = true)
    (hbef : ∀ i, i < j → availAtOffset cfg now s i = false)
    (hav' : availAtOffset cfg now s j' = true)
    (hbef' : ∀ i, i < j' → availAtOffset cfg now s i = false) : j = j' := by
  by_contra hne
  rcases Nat.lt_or_ge j j' with hlt | hge
  · rw [hbef' j hlt] at hav
    exact absurd hav (by decide)
  · rw [hbef j' (by omega)] at hav'
    exact absurd hav' (by decide)

theorem selectsAt_cursor (cfg : PoolConfig) (now : Int) (s : PoolState)
    (p : Nat) (u : String) (s' : PoolState)
    (hwf : s.current_index < s.clients.length)
    (hsel : selectsAt cfg now s p)
    (h : get_client cfg now s = .ok u s') :
    s'.current_index = (p + 1) % s.clients.length := by
  obtain ⟨j, hj, hpj, hav, hbef⟩ := hsel
  obtain ⟨j', hj', hbef', hav', _, hc', _, _⟩ :=
    get_client_ok_spec cfg now s u s' hwf h
  have havj : availAtOffset cfg now s j = true := by
    unfold availAtOffset
    rw [← hpj]
    exact hav
  have heqj : j = j' := selectsAt_unique_offset cfg now s havj hbef hav' hbef'
  subst heqj
  rw [hc', hpj, ← Nat.mod_add_mod]

theorem run_wf (cfg : PoolConfig) (times : Nat → Int) (states : Nat → PoolState)
    (names : Nat → String) (T : Nat)
    (hwf0 : (states 0).current_index < (states 0).clients.length)
    (hstep : ∀ k, k < T →
      get_client cfg (times k) (states k) = .ok (names k) (states (k + 1))) :
    ∀ k, k ≤ T → (states k).clients.length = (states 0).clients.length
      ∧ (states k).current_index < (states k).clients.length := by
  intro k
  induction k with
  | zero => intro _; exact ⟨rfl, hwf0⟩
  | succ k ih =>
    intro hk
    obtain ⟨hlen, hwf⟩ := ih (by omega)
    obtain ⟨j, hj, _, _, _, hc, _, hl⟩ := get_client_ok_spec cfg (times k)
      (states k) (names k) (states (k + 1)) hwf (hstep k (by omega))
    constructor
    · rw [hl, hlen]
    · rw [hc, hl]
      exact Nat.mod_lt _ (Nat.lt_of_le_of_lt (Nat.zero_le _) hwf)

theorem list_one_le_sum (L : List Nat) (h : ∀ x ∈ L, 1 ≤ x) :
    L.length ≤ L.sum := by
  induction L with
  | nil => simp
  | cons x xs ih =>
    simp only [List.length_cons, List.sum_cons]
    have hx := h x (List.mem_cons_self x xs)
    have hxs := ih (fun y hy => h y (List.mem_cons_of_mem x hy))
    omega

theorem exists_block (L : List Nat) (hpos : ∀ x ∈ L, 1 ≤ x) :
    ∀ m, m < L.sum →
      ∃ d, d < L.length ∧ (L.take d).sum ≤ m
        ∧ m < (L.take d).sum + L.getD d 0 := by
  induction L with
  | nil => intro m hm; simp at hm
  | cons x xs ih =>
    intro m hm
    by_cases hmx : m < x
    · exact ⟨0, by simp, by simp, by simpa using hmx⟩
    · have hx := hpos x (List.mem_cons_self x xs)
      have hm' : m - x < xs.sum := by
        simp only [List.sum_cons] at hm
        omega
      obtain ⟨d, hd, h1, h2⟩ :=
        ih (fun y hy => hpos y (List.mem_cons_of_mem x hy)) (m - x) hm'
      refine ⟨d + 1, by simpa using hd, ?_, ?_⟩
      · simp only [List.take_succ_cons, List.sum_cons]
        omega
      · simp only [List.take_succ_cons, List.sum_cons, List.getD_cons_succ]
        omega

theorem mod_cancel (a S N : Nat) (ha : a < N) (h : (a + S) % N = a) :
    S % N = 0 := by
  have hN : 0 < N := by omega
  rw [Nat.add_mod, Nat.mod_eq_of_lt ha] at h
  have h2 : S % N < N := Nat.mod_lt _ hN
  rcases Nat.lt_or_ge (a + S % N) N with hlt | hge
  · rw [Nat.mod_eq_of_lt hlt] at h; omega
  · rw [Nat.mod_eq_sub_mod hge, Nat.mod_eq_of_lt (by omega)] at h; omega

/-- C1: `get_client` implements true round-robin.
(i) It raises `NoAvailableClientError` exactly when every configured account
fails the availability check.
(ii) A successful call selects the first position in cursor order whose
availability check passes — scanning at most `N = client_count` positions,
every earlier scanned position having failed — and advances the cursor to
just past the selected position.
(iii) Fairness over call sequences: in any run of successful acquisitions,
between two calls that select the same position `p`, every other position
`q` is offered (availability-checked within the scanned arc) by some call in
between — no account is selected twice in a scan cycle before every other
account has been offered. -/
theorem C1_round_robin_acquire (cfg : PoolConfig) :
    (∀ (now : Int) (s : PoolState), s.current_index < s.clients.length →
      ((∃ s', get_client cfg now s = .err s')
        ↔ ∀ m ∈ s.clients, availB cfg now m = false))
    ∧ (∀ (now : Int) (s : PoolState) (u : String) (s' : PoolState),
        s.current_index < s.clients.length →
        get_client cfg now s = .ok u s' →
        ∃ p, selectsAt cfg now s p
          ∧ u = (s.clients.getD p default).username
          ∧ s'.current_index = (p + 1) % s.clients.length
          ∧ s'.clients.map (fun m => m.username)
              = s.clients.map (fun m => m.username))
    ∧ (∀ (times : Nat → Int) (states : Nat → PoolState)
          (names : Nat → String) (T : Nat),
        (states 0).current_index < (states 0).clients.length →
        (∀ k, k < T →
          get_client cfg (times k) (states k) = .ok (names k) (states (k + 1))) →
        ∀ t t' p, t < t' → t' < T →
        selectsAt cfg (times t) (states t) p →
        selectsAt cfg (times t') (states t') p →
        ∀ q, q < (states 0).clients.length → q ≠ p →
        ∃ u, t < u ∧ u ≤ t' ∧ offered cfg (times u) (states u) q) := by
  refine ⟨fun now s hwf => get_client_err_iff cfg now s hwf,
    ?_, ?_⟩
  · intro now s u s' hwf h
    obtain ⟨p, hsel, hu, hc, hm, _⟩ := get_client_ok_selectsAt cfg now s u s' hwf h
    exact ⟨p, hsel, hu, hc, hm⟩
  · intro times states names T hwf0 hstep t t' p htt' ht'T hselt hselt' q hq hqp
    have hwfk := run_wf cfg times states names T hwf0 hstep
    have hspec : ∀ k, k < T → ∃ j,
        j < (states k).clients.length
        ∧ (∀ i, i < j → availAtOffset cfg (times k) (states k) i = false)
        ∧ availAtOffset cfg (times k) (states k) j = true
        ∧ (states (k + 1)).current_index
            = ((states k).current_index + j + 1) % (states k).clients.length := by
      intro k hk
      obtain ⟨j, hj, hbef, hav, _, hc, _, _⟩ := get_client_ok_spec cfg (times k)
        (states k) (names k) (states (k + 1)) (hwfk k (by omega)).2 (hstep k hk)
      exact ⟨j, hj, hbef, hav, hc⟩
    choose jf hjf using hspec
    set L : List Nat := List.ofFn (fun d : Fin (t' - t) =>
      jf (t + 1 + d.val) (by have := d.isLt; omega) + 1) with hL
    have hLlen : L.length = t' - t := by
      rw [hL]; exact List.length_ofFn _
    have hLpos : ∀ x ∈ L, 1 ≤ x := by
      rw [hL]
      intro x hx
      rcases (List.mem_ofFn _ _).mp hx with ⟨d, hd⟩
      subst hd
      dsimp only
      omega
    have hLget : ∀ d (hd : d < t' - t) (hk : t + 1 + d < T),
        L.getD d 0 = jf (t + 1 + d) hk + 1 := by
      intro d hd hk
      rw [hL, List.getD_eq_getElem _ _ (by rw [List.length_ofFn]; exact hd),
        List.getElem_ofFn]
    have hchain : ∀ d, d ≤ t' - t →
        (states (t + 1 + d)).current_index
          = ((states (t + 1)).current_index + (L.take d).sum)
              % (states 0).clients.length := by
      intro d
      induction d with
      | zero =>
        intro _
        simp only [Nat.add_zero, List.take_zero, List.sum_nil]
        have h1 := (hwfk (t + 1) (by omega)).2
        have h2 := (hwfk (t + 1) (by omega)).1
        exact (Nat.mod_eq_of_lt (by omega)).symm
      | succ d ihd =>
        intro hd1
        have hklt : t + 1 + d < T := by omega
        have hstepc := (hjf (t + 1 + d) hklt).2.2.2
        have hidx : t + 1 + (d + 1) = t + 1 + d + 1 := by omega
        rw [hidx, hstepc, ihd (by omega)]
        have hlen := (hwfk (t + 1 + d) (by omega)).1
        rw [hlen, Nat.add_assoc, Nat.mod_add_mod]
        have hsum : (L.take (d + 1)).sum
            = (L.take d).sum + (jf (t + 1 + d) hklt + 1) := by
          rw [List.sum_take_succ L d (by rw [hLlen]; omega)]
          congr 1
          rw [← List.getD_eq_getElem L 0 (by rw [hLlen]; omega)]
          exact hLget d (by omega) hklt
        rw [hsum]
        congr 1
        omega
    have hcurs_t1 : (states (t + 1)).current_index
        = (p + 1) % (states 0).clients.length := by
      have h := selectsAt_cursor cfg (times t) (states t) p (names t)
        (states (t + 1)) (hwfk t (by omega)).2 hselt (hstep t (by omega))
      rw [h, (hwfk t (by omega)).1]
    have hcurs_t'1 : (states (t' + 1)).current_index
        = (p + 1) % (states 0).clients.length := by
      have h := selectsAt_cursor cfg (times t') (states t') p (names t')
        (states (t' + 1)) (hwfk t' (by omega)).2 hselt' (hstep t' (by omega))
      rw [h, (hwfk t' (by omega)).1]
    have htD : t + 1 + (t' - t) = t' + 1 := by omega
    have htake : L.take (t' - t) = L := by
      rw [← hLlen]
      exact List.take_length L
    have htotal : ((states (t + 1)).current_index + L.sum)
        % (states 0).clients.length = (states (t + 1)).current_index := by
      have h1 := hchain (t' - t) (le_refl _)
      rw [htD, htake] at h1
      rw [← h1, hcurs_t'1, hcurs_t1]
    have hc_lt : (states (t + 1)).current_index < (states 0).clients.length := by
      have h1 := (hwfk (t + 1) (by omega)).1
      have h2 := (hwfk (t + 1) (by omega)).2
      omega
    have hmod0 : L.sum % (states 0).clients.length = 0 :=
      mod_cancel _ _ _ hc_lt htotal
    have hSpos : 0 < L.sum := by
      have h := list_one_le_sum L hLpos
      rw [hLlen] at h
      omega
    have hSN : (states 0).clients.length ≤ L.sum :=
      Nat.le_of_dvd hSpos (Nat.dvd_of_mod_eq_zero hmod0)
    obtain ⟨m, hm, hmq⟩ := exists_offset_mod ((states (t + 1)).current_index) q
      (states 0).clients.length hc_lt hq
    obtain ⟨d, hdlen, hts1, hts2⟩ := exists_block L hLpos m (by omega)
    have hdD : d < t' - t := by rw [hLlen] at hdlen; exact hdlen
    have hklt : t + 1 + d < T := by omega
    have hgd : L.getD d 0 = jf (t + 1 + d) hklt + 1 := hLget d hdD hklt
    have hij : m - (L.take d).sum ≤ jf (t + 1 + d) hklt := by omega
    refine ⟨t + 1 + d, by omega, by omega, m - (L.take d).sum, ?_, ?_, ?_⟩
    · have hjlt := (hjf (t + 1 + d) hklt).1
      omega
    · rw [(hwfk (t + 1 + d) (by omega)).1, hchain d (by omega), Nat.mod_add_mod]
      rw [show (states (t + 1)).current_index + (L.take d).sum
          + (m - (L.take d).sum) = (states (t + 1)).current_index + m from by omega]
      exact hmq.symm
    · intro i' hi'
      exact (hjf (t + 1 + d) hklt).2.1 i' (by omega)

/-- Concrete two-client pool used to witness the round-robin theorem. -/
def wcfg : PoolConfig := { instagram_min_request_interval := 0 }

/-- The states of a concrete three-acquisition run (all calls at time 5):
positions 0, 1, 0 are selected in turn. -/
def wclient (name : String) (c : Nat) : ManagedClient :=
  { username := name, last_request_at := some 5, request_count := c,
    daily_request_count := c }

def wstates : Nat → PoolState := fun k =>
  if k = 0 then
    { clients := [{ username := "a" }, { username := "b" }], current_index := 0 }
  else if k = 1 then
    { clients := [wclient "a" 1, { username := "b" }], current_index := 1 }
  else if k = 2 then
    { clients := [wclient "a" 1, wclient "b" 1], current_index := 0 }
  else
    { clients := [wclient "a" 2, wclient "b" 1], current_index := 1 }

/-- The usernames leased along the concrete run. -/
def wnames : Nat → String := fun k => if k = 1 then "b" else "a"

/-- C1 witness: the theorem applied to the concrete two-client run — the
error/selection characterizations at the initial state, and position 1 being
offered between the two selections of position 0 (at steps 0 and 2). -/
theorem C1_round_robin_acquire_witness :
    ((∃ s', get_client wcfg 5 (wstates 0) = .err s')
      ↔ ∀ m ∈ (wstates 0).clients, availB wcfg 5 m = false)
    ∧ (∃ p, selectsAt wcfg 5 (wstates 0) p
        ∧ "a" = ((wstates 0).clients.getD p default).username
        ∧ (wstates 1).current_index = (p + 1) % (wstates 0).clients.length
        ∧ (wstates 1).clients.map (fun m => m.username)
            = (wstates 0).clients.map (fun m => m.username))
    ∧ (∃ u, 0 < u ∧ u ≤ 2 ∧ offered wcfg 5 (wstates u) 1) := by
  refine ⟨(C1_round_robin_acquire wcfg).1 5 (wstates 0) (by decide),
    (C1_round_robin_acquire wcfg).2.1 5 (wstates 0) "a" (wstates 1)
      (by decide) (by decide),
    (C1_round_robin_acquire wcfg).2.2 (fun _ => 5) wstates wnames 3
      (by decide) (by decide) 0 2 0 (by decide) (by decide)
      ⟨0, by decide, by decide, by decide,
        fun i hi => absurd hi (Nat.not_lt_zero i)⟩
      ⟨0, by decide, by decide, by decide,
        fun i hi => absurd hi (Nat.not_lt_zero i)⟩
      1 (by decide) (by decide)⟩

end TagBuy
